import Mathlib

/-!
Verification development for the Raydium sniper bot (Rust sources under `src/`).

The Rust code is shallowly embedded: pure functions become Lean functions,
machine integers become `Nat` (with explicit wrapping where the Rust code can
wrap), fallible code returns `Option`/`Except`, and the network is an explicit
oracle argument.  Real time inside `wait_for_confirmation` is abstracted as
one 500 ms tick per completed poll iteration (RPC latency zero), matching the
loop structure of the source.  The binary64 (`f64`) arithmetic used by
`calculate_min_amount_out` is modelled exactly over `ℚ` with round-to-nearest,
ties-to-even, which is the IEEE-754 semantics of the Rust operations in the
normal range (all values arising here are far from overflow and subnormals).
-/

set_option maxRecDepth 16384

deriving instance DecidableEq for Except

namespace Sniper

/-! ## Base58 (the `bs58` crate used by `Pubkey::from_str` / `to_string`) -/

/-- The Bitcoin base58 alphabet used by the `bs58` crate. -/
def base58Alphabet : List Char :=
  [ '1','2','3','4','5','6','7','8','9',
    'A','B','C','D','E','F','G','H','J','K','L','M','N','P','Q','R','S','T','U','V','W','X','Y','Z',
    'a','b','c','d','e','f','g','h','i','j','k','m','n','o','p','q','r','s','t','u','v','w','x','y','z' ]

/-- Value of one base58 digit character, `none` if the character is invalid. -/
def base58DigitValue (c : Char) : Option Nat :=
  base58Alphabet.findIdx? (· = c)

/-- Big-endian accumulation of a base58 digit string into a natural number. -/
def base58DecodeNat (cs : List Char) : Option Nat :=
  cs.foldl (fun acc c => acc.bind fun n => (base58DigitValue c).map fun d => n * 58 + d) (some 0)

/-- Big-endian byte representation of a natural number (no leading zeros);
`fuel`-structured so that the kernel can evaluate it. -/
def natToBytesBE : Nat → Nat → List Nat
  | 0, _ => []
  | fuel + 1, n => if n = 0 then [] else natToBytesBE fuel (n / 256) ++ [n % 256]

/-- Decode a base58 string to bytes, as `bs58::decode(s).into_vec()`:
each leading `'1'` contributes one leading zero byte, the remaining digits are
read as one big base-58 number. -/
def base58Decode (s : String) : Option (List Nat) :=
  let cs := s.data
  let zeros := (cs.takeWhile (· = '1')).length
  (base58DecodeNat cs).map fun n => List.replicate zeros 0 ++ natToBytesBE n n

/-- Base58 digit characters of a natural number, most significant first. -/
def natToBase58Chars : Nat → Nat → List Char
  | 0, _ => []
  | fuel + 1, n =>
    if n = 0 then []
    else natToBase58Chars fuel (n / 58) ++ [base58Alphabet.getD (n % 58) '1']

/-- Encode bytes to base58 (`bs58::encode`): one `'1'` per leading zero byte,
then the base-58 digits of the big-endian value. -/
def base58Encode (bytes : List Nat) : String :=
  let zeros := (bytes.takeWhile (· = 0)).length
  let n := bytes.foldl (fun acc b => acc * 256 + b) 0
  String.mk (List.replicate zeros '1' ++ natToBase58Chars n n)

/-! ## Pubkey (`solana_sdk::pubkey::Pubkey`) -/

/-- A Solana public key: 32 bytes. -/
structure Pubkey where
  bytes : List Nat
  deriving DecidableEq, Repr

/-- Maximum base58 input length accepted by `Pubkey::from_str`. -/
def MAX_BASE58_LEN : Nat := 44

/-- `Pubkey::from_str`: base58-decode and require exactly 32 bytes. -/
def Pubkey.fromStr (s : String) : Option Pubkey :=
  if MAX_BASE58_LEN < s.length then none
  else (base58Decode s).bind fun b => if b.length = 32 then some ⟨b⟩ else none

/-- `Pubkey`'s `Display` impl: base58 encoding of the 32 bytes. -/
def Pubkey.toBase58 (p : Pubkey) : String :=
  base58Encode p.bytes

/-- `solana_sdk::system_program::id()`, the all-zero key. -/
def systemProgramId : Pubkey := ⟨List.replicate 32 0⟩

/-! ## Program id constants (`src/config.rs`) -/

def RAYDIUM_AMM_V4_PROGRAM_ID : String := "675kPX9MHTj2zt1qfr1NYHuzeLXfQM9H24wFSUt1Mp8"

def RAYDIUM_CPMM_PROGRAM_ID : String := "CPMMoo8L3F4NbTegBCKVNunggL7H1ZpdTHKxQB5qKP1C"

/-! ## Instruction discriminators (`src/instructions.rs`, `mod discriminators`) -/

namespace discriminators

/-- Initialize2 instruction (AMM v4). -/
def INITIALIZE2 : List Nat := [175, 175, 109, 31, 13, 152, 155, 237]

/-- Initialize instruction (AMM v4). -/
def INITIALIZE : List Nat := [175, 175, 109, 31, 13, 152, 155, 237]

/-- Swap instruction (AMM v4). -/
def SWAP : List Nat := [225, 226, 218, 232, 240, 105, 206, 129]

/-- CPMM Initialize (placeholder `[0; 8]` in the source). -/
def CPMM_INITIALIZE : List Nat := List.replicate 8 0

/-- CPMM Swap (placeholder `[0; 8]` in the source). -/
def CPMM_SWAP : List Nat := List.replicate 8 0

end discriminators

/-! ## Codec (`src/instructions.rs`) -/

/-- `is_pool_initialization`: short data is never a pool init; otherwise the
8-byte prefix is compared with the three table entries. -/
def is_pool_initialization (data : List Nat) : Bool :=
  if data.length < 8 then false
  else
    let discriminator := data.take 8
    discriminator == discriminators.INITIALIZE
      || discriminator == discriminators.INITIALIZE2
      || discriminator == discriminators.CPMM_INITIALIZE

/-- Data extracted from a pool creation instruction. -/
structure PoolCreationData where
  pool : Pubkey
  amm : Pubkey
  creator : Pubkey
  deriving DecidableEq, Repr

/-- `parse_pool_creation`: positional extraction of (pool, amm, creator)
from the account list; `None` on a short index list or out-of-range index. -/
def parse_pool_creation (accounts : List Pubkey) (instruction_account_indices : List Nat) :
    Option PoolCreationData :=
  if instruction_account_indices.length < 5 then none
  else do
    let pool ← accounts.get? (instruction_account_indices.getD 0 0)
    let amm ← accounts.get? (instruction_account_indices.getD 1 0)
    let creator ← accounts.get? (instruction_account_indices.getD 2 0)
    some ⟨pool, amm, creator⟩

/-- `u64::to_le_bytes`: little-endian 8-byte encoding. -/
def toLeBytes8 (n : Nat) : List Nat :=
  [n % 256, n / 256 % 256, n / 256 ^ 2 % 256, n / 256 ^ 3 % 256,
   n / 256 ^ 4 % 256, n / 256 ^ 5 % 256, n / 256 ^ 6 % 256, n / 256 ^ 7 % 256]

/-- `solana_sdk::instruction::AccountMeta`. -/
structure AccountMeta where
  pubkey : Pubkey
  is_signer : Bool
  is_writable : Bool
  deriving DecidableEq, Repr

/-- `AccountMeta::new`: writable. -/
def AccountMeta.new (pubkey : Pubkey) (is_signer : Bool) : AccountMeta :=
  ⟨pubkey, is_signer, true⟩

/-- `AccountMeta::new_readonly`. -/
def AccountMeta.new_readonly (pubkey : Pubkey) (is_signer : Bool) : AccountMeta :=
  ⟨pubkey, is_signer, false⟩

/-- `solana_sdk::instruction::Instruction`. -/
structure Instruction where
  program_id : Pubkey
  accounts : List AccountMeta
  data : List Nat
  deriving DecidableEq, Repr

/-- `build_raydium_swap_instruction` (`src/instructions.rs:40`).  The `pool`
and `user_source_owner` arguments are accepted but never used by the body,
exactly as in the source. -/
def build_raydium_swap_instruction
    (user pool amm amm_authority amm_open_orders amm_target_orders
     pool_coin_token_account pool_pc_token_account serum_program_id serum_market
     user_source_token_account user_dest_token_account user_source_owner : Pubkey)
    (amount_in min_amount_out : Nat) : Except String Instruction :=
  match Pubkey.fromStr RAYDIUM_AMM_V4_PROGRAM_ID with
  | none => Except.error "Failed to parse Raydium AMM v4 program ID"
  | some program_id =>
    let data := discriminators.SWAP ++ toLeBytes8 amount_in ++ toLeBytes8 min_amount_out
    let accounts :=
      [ AccountMeta.new user true,
        AccountMeta.new_readonly amm false,
        AccountMeta.new_readonly amm_authority false,
        AccountMeta.new amm_open_orders false,
        AccountMeta.new amm_target_orders false,
        AccountMeta.new pool_coin_token_account false,
        AccountMeta.new pool_pc_token_account false,
        AccountMeta.new user_source_token_account false,
        AccountMeta.new user_dest_token_account false,
        AccountMeta.new_readonly serum_program_id false,
        AccountMeta.new_readonly serum_market false,
        AccountMeta.new_readonly systemProgramId false ]
    Except.ok ⟨program_id, accounts, data⟩

/-- `build_cpmm_swap_instruction` (`src/instructions.rs:93`). -/
def build_cpmm_swap_instruction
    (user pool user_source_token_account user_dest_token_account
     pool_source_token_account pool_dest_token_account : Pubkey)
    (amount_in min_amount_out : Nat) : Except String Instruction :=
  match Pubkey.fromStr RAYDIUM_CPMM_PROGRAM_ID with
  | none => Except.error "Failed to parse Raydium CPMM program ID"
  | some program_id =>
    let data := discriminators.CPMM_SWAP ++ toLeBytes8 amount_in ++ toLeBytes8 min_amount_out
    let accounts :=
      [ AccountMeta.new user true,
        AccountMeta.new_readonly pool false,
        AccountMeta.new user_source_token_account false,
        AccountMeta.new user_dest_token_account false,
        AccountMeta.new pool_source_token_account false,
        AccountMeta.new pool_dest_token_account false,
        AccountMeta.new_readonly systemProgramId false ]
    Except.ok ⟨program_id, accounts, data⟩

/-- `PoolDetector::parse_pool_instruction` (`src/detector.rs:320`): base58
decode of the instruction data, discriminator recognition, then positional
key extraction with `Pubkey::from_str` on each referenced key string.  Every
failure path yields `None`. -/
def parse_pool_instruction (data : String) (account_keys : List String)
    (account_indices : List Nat) : Option PoolCreationData := do
  let decoded ← base58Decode data
  if !is_pool_initialization decoded then none
  else if account_indices.length < 4 then none
  else do
    let k0 ← account_keys.get? (account_indices.getD 0 0)
    let pool ← Pubkey.fromStr k0
    let k1 ← account_keys.get? (account_indices.getD 1 0)
    let amm ← Pubkey.fromStr k1
    let k2 ← account_keys.get? (account_indices.getD 2 0)
    let creator ← Pubkey.fromStr k2
    some ⟨pool, amm, creator⟩

/-! ## Data model (`src/config.rs`, `src/detector.rs`) -/

/-- Pool program variant. -/
inductive PoolType
  | AMMv4
  | CPMM
  deriving DecidableEq, Repr

/-- `PoolCreationEvent` (`src/detector.rs:11`). -/
structure PoolCreationEvent where
  pool : Pubkey
  amm : Pubkey
  creator : Pubkey
  program_id : Pubkey
  signature : String
  slot : Nat
  timestamp : Int
  pool_type : PoolType
  deriving DecidableEq, Repr

/-- `Config` (`src/config.rs:12`).  `f64`-typed fields are carried as the
rationals they denote; none of the functions verified here reads them. -/
structure Config where
  rpc_url : String
  yellowstone_grpc_url : Option String
  private_key : Option String
  mnemonic : Option String
  buy_amount_sol : ℚ
  priority_fee_micro_lamports : Nat
  min_liquidity_usd : ℚ
  max_liquidity_usd : Option ℚ
  blacklisted_creators : List String
  dry_run : Bool
  jito_enabled : Bool
  jito_tip_lamports : Nat
  jito_block_engine_url : Option String
  max_compute_units : Nat
  slippage_bps : Nat
  use_websocket_fallback : Bool
  rate_limit_ms : Nat
  monitor_amm_v4 : Bool
  monitor_cpmm : Bool
  deriving DecidableEq, Repr

/-- `Config::default` (`src/config.rs:53`). -/
def Config.default : Config where
  rpc_url := "https://api.mainnet-beta.solana.com"
  yellowstone_grpc_url := none
  private_key := none
  mnemonic := none
  buy_amount_sol := 1 / 10
  priority_fee_micro_lamports := 100000
  min_liquidity_usd := 1000
  max_liquidity_usd := none
  blacklisted_creators := []
  dry_run := true
  jito_enabled := false
  jito_tip_lamports := 10000
  jito_block_engine_url := none
  max_compute_units := 1400000
  slippage_bps := 50
  use_websocket_fallback := true
  rate_limit_ms := 100
  monitor_amm_v4 := true
  monitor_cpmm := true

/-! ## Filter engine (`src/sniper.rs:42`–`117`)

`check_liquidity` and `check_rug_indicators` are placeholders in the source
that unconditionally return `Ok(true)` without touching the network; they are
embedded verbatim.  `evaluate_pool` additionally records, in order, which
checks it actually executed, so that the short-circuit behaviour is a provable
statement rather than an informal one. -/

/-- One of the two fallible filter checks. -/
inductive FilterCheck
  | liquidity
  | rug
  deriving DecidableEq, Repr

/-- `Sniper::check_liquidity` (`src/sniper.rs:90`): placeholder, always
`Ok(true)`, no network read. -/
def check_liquidity (_pool : Pubkey) (_pool_type : PoolType) : Except String Bool :=
  Except.ok true

/-- `Sniper::check_rug_indicators` (`src/sniper.rs:108`): placeholder, always
`Ok(true)`, no network read. -/
def check_rug_indicators (_pool : Pubkey) : Except String Bool :=
  Except.ok true

/-- `Sniper::evaluate_pool` (`src/sniper.rs:42`).  Returns the verdict
together with the ordered trace of checks that were executed. -/
def evaluate_pool (config : Config) (event : PoolCreationEvent) :
    Except String Bool × List FilterCheck :=
  let creator_str := event.creator.toBase58
  if config.blacklisted_creators.contains creator_str then
    (Except.ok false, [])
  else
    match check_liquidity event.pool event.pool_type with
    | Except.ok has_sufficient_liquidity =>
      if !has_sufficient_liquidity then
        (Except.ok false, [FilterCheck.liquidity])
      else
        match check_rug_indicators event.pool with
        | Except.ok is_safe =>
          if !is_safe then (Except.ok false, [FilterCheck.liquidity, FilterCheck.rug])
          else (Except.ok true, [FilterCheck.liquidity, FilterCheck.rug])
        | Except.error _ => (Except.ok true, [FilterCheck.liquidity, FilterCheck.rug])
    | Except.error _ =>
        match check_rug_indicators event.pool with
        | Except.ok is_safe =>
          if !is_safe then (Except.ok false, [FilterCheck.liquidity, FilterCheck.rug])
          else (Except.ok true, [FilterCheck.liquidity, FilterCheck.rug])
        | Except.error _ => (Except.ok true, [FilterCheck.liquidity, FilterCheck.rug])

/-! ## Detection start (`src/detector.rs:52`–`236`)

The two transport attempts are abstracted by boolean oracles (`connect_ok`
for `GeyserGrpcClient::connect`, `subscribe_ok` for `subscribe_once`); the
returned value records which adapter ended up producing the event stream. -/

/-- Which adapter `start_detection` settled on. -/
inductive DetectionMethod
  | geyser
  | websocket
  deriving DecidableEq, Repr

/-- `PoolDetector::start_geyser_stream` (`src/detector.rs:79`): connect,
build the monitored program-id list (AMM v4 first, then CPMM), fail on an
empty list, then subscribe. -/
def start_geyser_stream (config : Config) (connect_ok subscribe_ok : Bool) :
    Except String DetectionMethod :=
  if !connect_ok then Except.error "Failed to connect to Yellowstone Geyser"
  else
    let program_ids :=
      (if config.monitor_amm_v4 then [RAYDIUM_AMM_V4_PROGRAM_ID] else []) ++
      (if config.monitor_cpmm then [RAYDIUM_CPMM_PROGRAM_ID] else [])
    if program_ids.isEmpty then Except.error "No Raydium programs enabled for monitoring"
    else if !subscribe_ok then Except.error "Failed to subscribe to Geyser stream"
    else Except.ok DetectionMethod.geyser

/-- `PoolDetector::start_websocket_subscription` (`src/detector.rs:165`):
spawns the polling task and returns the stream unconditionally — in
particular it performs no monitored-set check. -/
def start_websocket_subscription (_config : Config) : Except String DetectionMethod :=
  Except.ok DetectionMethod.websocket

/-- `PoolDetector::start_detection` (`src/detector.rs:52`): try Geyser when a
gRPC endpoint is configured, surface its failure unless the WebSocket
fallback is enabled, otherwise (or without a gRPC endpoint) use WebSocket. -/
def start_detection (config : Config) (connect_ok subscribe_ok : Bool) :
    Except String DetectionMethod :=
  match config.yellowstone_grpc_url with
  | some _ =>
    match start_geyser_stream config connect_ok subscribe_ok with
    | Except.ok stream => Except.ok stream
    | Except.error e =>
      if !config.use_websocket_fallback then Except.error e
      else start_websocket_subscription config
  | none => start_websocket_subscription config

/-! ## Submission and confirmation (`src/sniper.rs:245`–`318`)

`send_transaction` and `get_signature_status` are abstracted by oracles
indexed by attempt number / poll iteration.  Inside `wait_for_confirmation`
elapsed time is 500 ms per completed loop iteration (one sleep per
iteration, RPC latency zero), so the `elapsed > 30 s` test at the top of
iteration `i` reads `30000 < 500 * i`. -/

/-- Result of one `send_transaction` call. -/
inductive SendAttemptResult
  | accepted (signature : String)
  | failed (err : String)
  deriving DecidableEq, Repr

/-- Result of one `get_signature_status` call: `found err confirmation_status`
models `Ok(Some(status))`, `notFound` models `Ok(None)`, `rpcError` models
`Err(_)`. -/
inductive PollStatus
  | found (err : Option String) (confirmation_status : Option String)
  | notFound
  | rpcError (e : String)
  deriving DecidableEq, Repr

/-- Loop body of `Sniper::wait_for_confirmation` (`src/sniper.rs:285`),
structured over fuel so the kernel can evaluate it.  With fuel `62` the
fuel-exhaustion branch is unreachable: the timeout test fires at `i = 61`
(elapsed 30500 ms). -/
def wait_for_confirmation_go (polls : Nat → PollStatus) : Nat → Nat → Except String Unit
  | 0, _ => Except.error "Transaction confirmation timeout"
  | fuel + 1, i =>
    if 30000 < 500 * i then Except.error "Transaction confirmation timeout"
    else
      match polls i with
      | PollStatus.found (some e) _ => Except.error ("Transaction failed: " ++ e)
      | PollStatus.found none confirmation_status =>
        if confirmation_status.isSome then Except.ok ()
        else wait_for_confirmation_go polls fuel (i + 1)
      | PollStatus.notFound => wait_for_confirmation_go polls fuel (i + 1)
      | PollStatus.rpcError _ => wait_for_confirmation_go polls fuel (i + 1)

/-- `Sniper::wait_for_confirmation`: poll every 500 ms, at most 30 s. -/
def wait_for_confirmation (polls : Nat → PollStatus) : Except String Unit :=
  wait_for_confirmation_go polls 62 0

/-- Observable outcome of one `send_transaction_with_retry` run:
the value returned to the caller, the number of `send_transaction` attempts
made, and the backoff delays (in ms) slept between attempts. -/
structure RetryRun where
  result : Except String String
  attempts : Nat
  delays : List Nat
  deriving DecidableEq, Repr

/-- Loop body of `Sniper::send_transaction_with_retry` (`src/sniper.rs:245`),
with `remaining` counting the attempts still allowed (`remaining`,
`attempt` are linked by `attempt + remaining = max_retries + 1`).  On an
accepted submission the confirmation result is computed, logged and
discarded — the bound `_confirmation` mirrors `if let Err(e) = ... {
log::warn!(...) }` in the source — and `Ok(signature)` is returned. -/
def send_retry_go (send : Nat → SendAttemptResult) (polls : Nat → PollStatus)
    (max_retries : Nat) : Nat → Nat → Option String → List Nat → RetryRun
  | 0, attempt, last_error, delays =>
    { result := Except.error
        (last_error.getD ("Transaction failed after " ++ toString max_retries ++ " retries"))
      attempts := attempt - 1
      delays := delays }
  | remaining + 1, attempt, _last_error, delays =>
    match send attempt with
    | SendAttemptResult.accepted sig =>
      let _confirmation := wait_for_confirmation polls
      { result := Except.ok sig, attempts := attempt, delays := delays }
    | SendAttemptResult.failed e =>
      let delays' := if attempt < max_retries then delays ++ [1000 * attempt] else delays
      send_retry_go send polls max_retries remaining (attempt + 1) (some e) delays'

/-- `Sniper::send_transaction_with_retry`: attempts `1..=max_retries`. -/
def send_transaction_with_retry (send : Nat → SendAttemptResult)
    (polls : Nat → PollStatus) (max_retries : Nat) : RetryRun :=
  send_retry_go send polls max_retries max_retries 1 none []

/-! ## Binary64 model (`src/utils.rs:55`, `calculate_min_amount_out`)

The Rust function computes
`(amount_out as f64 * ((10000 - slippage_bps) as f64 / 10000.0)) as u64`
in IEEE-754 binary64.  All values arising here lie in `[0, 2^64]`, far inside
the normal range, so binary64 arithmetic is exactly: round every operand and
operation result to 53 significant bits, to nearest, ties to even.  The
computable model below represents a non-negative double as a significand /
exponent pair `(m, e) : ℕ × ℤ` (value `m·2^e`) and performs the rounding with
integer arithmetic; `rneDiv a b` is `a/b` rounded to the nearest integer,
ties to even. -/

/-- Fuel-structured binary logarithm (largest `k` with `2^k ≤ n`, and `0`
for `n = 0`); the fuel makes it kernel-evaluable. -/
def log2_go : Nat → Nat → Nat
  | 0, _ => 0
  | fuel + 1, n => if n < 2 then 0 else log2_go fuel (n / 2) + 1

/-- Largest `k` with `2^k ≤ n` (for `1 ≤ n`). -/
def nat_log2 (n : Nat) : Nat := log2_go n n

/-- The unique `E` with `2^E ≤ a/b < 2^(E+1)`, for `1 ≤ a`, `1 ≤ b`. -/
def ratExp2N (a b : Nat) : Int :=
  let d : Int := (nat_log2 a : Int) - (nat_log2 b : Int)
  if a * 2 ^ (-d).toNat < b * 2 ^ d.toNat then d - 1 else d

/-- `a / b` rounded to the nearest natural number, ties to even (`b > 0`). -/
def rneDiv (a b : Nat) : Nat :=
  let q := a / b
  let r := a % b
  if 2 * r < b then q
  else if b < 2 * r then q + 1
  else if q % 2 = 0 then q else q + 1

/-- Round the positive rational `a / b` to binary64: a pair `(m, e)` with
`2^52 ≤ m ≤ 2^53` whose value `m·2^e` is `a/b` rounded to 53 significant
bits, to nearest, ties to even. -/
def roundRat64 (a b : Nat) : Nat × Int :=
  let E := ratExp2N a b
  (rneDiv (a * 2 ^ (52 - E).toNat) (b * 2 ^ (E - 52).toNat), E - 52)

/-- `n as f64` for `n : u64` (more generally any `ℕ`). -/
def f64FromNat (n : Nat) : Nat × Int :=
  if n = 0 then (0, 0) else roundRat64 n 1

/-- Binary64 multiplication of non-negative doubles: round the exact
product; rounding is invariant under the power-of-two scaling `2^(e₁+e₂)`. -/
def f64Mul (x y : Nat × Int) : Nat × Int :=
  if x.1 = 0 || y.1 = 0 then (0, 0)
  else
    let r := roundRat64 (x.1 * y.1) 1
    (r.1, r.2 + x.2 + y.2)

/-- Binary64 division of non-negative doubles (`y ≠ 0`). -/
def f64Div (x y : Nat × Int) : Nat × Int :=
  if x.1 = 0 then (0, 0)
  else
    let r := roundRat64 x.1 y.1
    (r.1, r.2 + x.2 - y.2)

/-- `as u64` on a non-negative double: truncate toward zero, saturating at
`u64::MAX`. -/
def f64TruncToU64 (x : Nat × Int) : Nat :=
  min (2 ^ 64 - 1) (if 0 ≤ x.2 then x.1 * 2 ^ x.2.toNat else x.1 / 2 ^ (-x.2).toNat)

/-- `calculate_min_amount_out` (`src/utils.rs:55`):
`let slippage_factor = (10000 - slippage_bps) as f64 / 10000.0;`
`(amount_out as f64 * slippage_factor) as u64`.
The subtraction `10000 - slippage_bps` is `u16` arithmetic, so it wraps
modulo `2^16` (release-profile semantics) — for `slippage_bps ≤ 10000` it is
plain subtraction.  `10000.0` and `(10000 - slippage_bps) as f64` are exact
in binary64. -/
def calculate_min_amount_out (amount_out slippage_bps : Nat) : Nat :=
  let diff : Nat := (10000 + 65536 - slippage_bps) % 65536
  let slippage_factor := f64Div (f64FromNat diff) (f64FromNat 10000)
  f64TruncToU64 (f64Mul (f64FromNat amount_out) slippage_factor)

/-! ### Proof-level view of the rounding

`dval` interprets a significand/exponent pair as a rational; `roundQ` is
round-to-nearest-even at 53 significant bits directly on `ℚ`.  The bridge
lemmas below show the computable integer model realises `roundQ`, and the
behavioural lemmas (monotonicity, exactness on small integers) are proved
against `roundQ`. -/

/-- Value of a significand/exponent pair. -/
def dval (x : Nat × Int) : ℚ := (x.1 : ℚ) * 2 ^ x.2

/-- Round a rational to the nearest integer, ties to even. -/
def rhe (q : ℚ) : Int :=
  if Int.fract q < 1 / 2 then ⌊q⌋
  else if 1 / 2 < Int.fract q then ⌊q⌋ + 1
  else if ⌊q⌋ % 2 = 0 then ⌊q⌋ else ⌊q⌋ + 1

/-- Binade exponent of a positive rational. -/
def ratExp2Q (q : ℚ) : Int := ratExp2N q.num.toNat q.den

/-- Round-to-nearest-even at 53 significant bits on `ℚ` (zero below zero;
inputs here are never negative). -/
def roundQ (q : ℚ) : ℚ :=
  if q ≤ 0 then 0
  else (rhe (q * 2 ^ (52 - ratExp2Q q)) : ℚ) * 2 ^ (ratExp2Q q - 52)

/-! ### Lemmas about the rounding model -/

theorem log2_go_spec : ∀ fuel n, 1 ≤ n → n ≤ fuel →
    2 ^ log2_go fuel n ≤ n ∧ n < 2 ^ (log2_go fuel n + 1) := by
  intro fuel
  induction fuel with
  | zero => intro n h1 h2; omega
  | succ fuel ih =>
    intro n h1 h2
    simp only [log2_go]
    by_cases hn : n < 2
    · simp [hn]; omega
    · simp only [hn, if_false]
      have hd1 : 1 ≤ n / 2 := by omega
      have hd2 : n / 2 ≤ fuel := by omega
      obtain ⟨ha, hb⟩ := ih (n / 2) hd1 hd2
      have e1 : 2 ^ (log2_go fuel (n / 2) + 1) = 2 * 2 ^ log2_go fuel (n / 2) := by ring
      have e2 : 2 ^ (log2_go fuel (n / 2) + 1 + 1) = 2 * 2 ^ (log2_go fuel (n / 2) + 1) := by ring
      omega

theorem nat_log2_spec (n : Nat) (h : 1 ≤ n) :
    2 ^ nat_log2 n ≤ n ∧ n < 2 ^ (nat_log2 n + 1) :=
  log2_go_spec n n h le_rfl

theorem zpow_toNat_sub (e : Int) : ((2 : ℚ) ^ e.toNat) / ((2 : ℚ) ^ (-e).toNat) = 2 ^ e := by
  rw [div_eq_iff (by positivity)]
  rw [← zpow_natCast (2 : ℚ) e.toNat, ← zpow_natCast (2 : ℚ) (-e).toNat,
    ← zpow_add₀ (by norm_num : (2 : ℚ) ≠ 0)]
  congr 1
  omega

theorem zpow_natSub (u v : Nat) : (2 : ℚ) ^ ((u : Int) - v) = (2 : ℚ) ^ u / 2 ^ v := by
  rw [zpow_sub₀ (by norm_num : (2 : ℚ) ≠ 0), zpow_natCast, zpow_natCast]

theorem ratExp2N_spec (a b : Nat) (ha : 1 ≤ a) (hb : 1 ≤ b) :
    (2 : ℚ) ^ ratExp2N a b ≤ (a : ℚ) / b ∧ ((a : ℚ) / b) < 2 ^ (ratExp2N a b + 1) := by
  have hbq : (0 : ℚ) < b := by exact_mod_cast hb
  obtain ⟨ha1, ha2⟩ := nat_log2_spec a ha
  obtain ⟨hb1, hb2⟩ := nat_log2_spec b hb
  set la := nat_log2 a with hla
  set lb := nat_log2 b with hlb
  set d : Int := (la : Int) - lb with hd
  have hup : (a : ℚ) / b < 2 ^ (d + 1) := by
    have h1 : a * 2 ^ lb < 2 ^ (la + 1) * b := by
      calc a * 2 ^ lb < 2 ^ (la + 1) * 2 ^ lb :=
            mul_lt_mul_of_pos_right ha2 (pow_pos (by norm_num) lb)
        _ ≤ 2 ^ (la + 1) * b := Nat.mul_le_mul le_rfl hb1
    have he : d + 1 = ((la + 1 : Nat) : Int) - (lb : Nat) := by push_cast; ring
    rw [he, zpow_natSub, div_lt_div_iff hbq (by positivity)]
    exact_mod_cast h1
  have hlow : (2 : ℚ) ^ (d - 1) < (a : ℚ) / b := by
    have h1 : 2 ^ la * b < a * 2 ^ (lb + 1) := by
      calc 2 ^ la * b ≤ a * b := Nat.mul_le_mul ha1 le_rfl
        _ < a * 2 ^ (lb + 1) := mul_lt_mul_of_pos_left hb2 (by omega)
    have he : d - 1 = ((la : Nat) : Int) - ((lb + 1 : Nat) : Int) := by push_cast; ring
    rw [he, zpow_natSub, div_lt_div_iff (by positivity) hbq]
    exact_mod_cast h1
  have hcmp : (a * 2 ^ (-d).toNat < b * 2 ^ d.toNat) ↔ ((a : ℚ) / b < 2 ^ d) := by
    rw [← zpow_toNat_sub d, div_lt_div_iff hbq (by positivity)]
    constructor
    · intro h
      have h' : (a : ℚ) * 2 ^ (-d).toNat < (b : ℚ) * 2 ^ d.toNat := by exact_mod_cast h
      linarith
    · intro h
      have h' : (a : ℚ) * 2 ^ (-d).toNat < (b : ℚ) * 2 ^ d.toNat := by linarith
      exact_mod_cast h'
  simp only [ratExp2N, ← hla, ← hlb, ← hd]
  by_cases hlt : a * 2 ^ (-d).toNat < b * 2 ^ d.toNat
  · simp only [hlt, if_true]
    refine ⟨le_of_lt ?_, ?_⟩
    · have he : d - 1 + 1 - 1 = d - 1 := by ring
      exact hlow
    · have he : d - 1 + 1 = d := by ring
      rw [he]
      exact hcmp.mp hlt
  · simp only [hlt, if_false]
    exact ⟨not_lt.mp (fun hq => hlt (hcmp.mpr hq)), hup⟩

theorem exp2_unique {q : ℚ} {E F : Int} (h1 : 2 ^ E ≤ q) (h2 : q < 2 ^ (E + 1))
    (h3 : 2 ^ F ≤ q) (h4 : q < 2 ^ (F + 1)) : E = F := by
  have hEF : (2 : ℚ) ^ E < 2 ^ (F + 1) := lt_of_le_of_lt h1 h4
  have hFE : (2 : ℚ) ^ F < 2 ^ (E + 1) := lt_of_le_of_lt h3 h2
  have k1 : E < F + 1 := by
    by_contra hc
    push_neg at hc
    exact absurd (zpow_le_zpow_right₀ (by norm_num : (1:ℚ) ≤ 2) hc) (not_le.mpr hEF)
  have k2 : F < E + 1 := by
    by_contra hc
    push_neg at hc
    exact absurd (zpow_le_zpow_right₀ (by norm_num : (1:ℚ) ≤ 2) hc) (not_le.mpr hFE)
  omega

theorem rhe_floor_le (q : ℚ) : ⌊q⌋ ≤ rhe q := by
  unfold rhe; split_ifs <;> omega

theorem rhe_le_floor_add_one (q : ℚ) : rhe q ≤ ⌊q⌋ + 1 := by
  unfold rhe; split_ifs <;> omega

theorem rhe_intCast (n : Int) : rhe (n : ℚ) = n := by
  unfold rhe
  simp [Int.fract_intCast]

theorem rhe_mono {q q' : ℚ} (h : q ≤ q') : rhe q ≤ rhe q' := by
  rcases lt_or_eq_of_le (Int.floor_le_floor h) with hf | hf
  · calc rhe q ≤ ⌊q⌋ + 1 := rhe_le_floor_add_one q
      _ ≤ ⌊q'⌋ := by omega
      _ ≤ rhe q' := rhe_floor_le q'
  · have hfr : Int.fract q ≤ Int.fract q' := by
      unfold Int.fract
      rw [hf]
      linarith
    unfold rhe
    rw [hf]
    split_ifs <;> first | omega | linarith

theorem rneDiv_eq_rhe (a b : Nat) (hb : 0 < b) :
    (rneDiv a b : Int) = rhe ((a : ℚ) / b) := by
  have hbq : (0 : ℚ) < b := by exact_mod_cast hb
  have h1 := Nat.div_add_mod a b
  have h2 : a % b < b := Nat.mod_lt a hb
  have h1q : (b : ℚ) * ((a / b : Nat) : ℚ) + ((a % b : Nat) : ℚ) = (a : ℚ) := by
    exact_mod_cast h1
  have hfl : ⌊(a : ℚ) / b⌋ = ((a / b : Nat) : Int) := by
    rw [Int.floor_eq_iff]
    constructor
    · rw [Int.cast_natCast, le_div_iff₀ hbq]
      exact_mod_cast Nat.div_mul_le_self a b
    · rw [Int.cast_natCast, div_lt_iff₀ hbq]
      have h3 : a < (a / b + 1) * b := by
        calc a = b * (a / b) + a % b := h1.symm
          _ < b * (a / b) + b := by omega
          _ = (a / b + 1) * b := by ring
      exact_mod_cast h3
  have hfr : Int.fract ((a : ℚ) / b) = ((a % b : Nat) : ℚ) / b := by
    rw [Int.fract, hfl, Int.cast_natCast]
    field_simp
    linarith
  have c1 : Int.fract ((a : ℚ) / b) < 1 / 2 ↔ 2 * (a % b) < b := by
    rw [hfr, div_lt_div_iff hbq (by norm_num : (0:ℚ) < 2), one_mul]
    have e : ((a % b : Nat) : ℚ) * 2 = ((2 * (a % b) : Nat) : ℚ) := by push_cast; ring
    rw [e, Nat.cast_lt]
  have c2 : 1 / 2 < Int.fract ((a : ℚ) / b) ↔ b < 2 * (a % b) := by
    rw [hfr, div_lt_div_iff (by norm_num : (0:ℚ) < 2) hbq, one_mul]
    have e : ((a % b : Nat) : ℚ) * 2 = ((2 * (a % b) : Nat) : ℚ) := by push_cast; ring
    rw [e, Nat.cast_lt]
  have c3 : ((a / b : Nat) : Int) % 2 = 0 ↔ (a / b) % 2 = 0 := by omega
  unfold rneDiv rhe
  rw [hfl]
  simp only [c1, c2, c3]
  split_ifs <;> push_cast <;> ring

theorem two_zpow_pos (e : Int) : (0 : ℚ) < 2 ^ e := zpow_pos (by norm_num) e

theorem two_zpow_add (e f : Int) : (2 : ℚ) ^ (e + f) = 2 ^ e * 2 ^ f :=
  zpow_add₀ (by norm_num) e f

theorem two_zpow_coe (k : Nat) : (2 : ℚ) ^ ((k : Nat) : Int) = ((2 ^ k : Int) : ℚ) := by
  rw [zpow_natCast]
  push_cast
  ring

theorem ratExp2Q_spec {q : ℚ} (hq : 0 < q) :
    (2 : ℚ) ^ ratExp2Q q ≤ q ∧ q < 2 ^ (ratExp2Q q + 1) := by
  have hnum : 0 < q.num := Rat.num_pos.mpr hq
  have ha : 1 ≤ q.num.toNat := by omega
  have hb : 1 ≤ q.den := q.den_pos
  have hcast : ((q.num.toNat : Nat) : ℚ) = (q.num : ℚ) := by
    have : ((q.num.toNat : Nat) : Int) = q.num := by omega
    exact_mod_cast congrArg (fun z : Int => (z : ℚ)) this
  have hval : ((q.num.toNat : Nat) : ℚ) / (q.den : ℚ) = q := by
    rw [hcast, Rat.num_div_den]
  have := ratExp2N_spec q.num.toNat q.den ha hb
  rw [hval] at this
  exact this

theorem roundQ_nonneg (q : ℚ) : 0 ≤ roundQ q := by
  unfold roundQ
  split_ifs with h0
  · exact le_refl 0
  · have hq : 0 < q := not_le.mp h0
    apply mul_nonneg _ (le_of_lt (two_zpow_pos _))
    have h1 : (0 : Int) ≤ ⌊q * 2 ^ (52 - ratExp2Q q)⌋ :=
      Int.floor_nonneg.mpr (le_of_lt (mul_pos hq (two_zpow_pos _)))
    exact_mod_cast le_trans h1 (rhe_floor_le _)

theorem roundQ_natCast {n : Nat} (hn : n ≤ 2 ^ 53) : roundQ (n : ℚ) = n := by
  rcases Nat.eq_zero_or_pos n with h0 | hpos
  · subst h0
    unfold roundQ
    norm_num
  · have hq : (0 : ℚ) < n := by exact_mod_cast hpos
    unfold roundQ
    rw [if_neg (not_le.mpr hq)]
    rcases lt_or_eq_of_le hn with hlt | heq
    · -- n < 2^53 : the exponent is at most 52 and n·2^(52-E) is a natural number
      obtain ⟨hs1, hs2⟩ := ratExp2Q_spec hq
      set E := ratExp2Q (n : ℚ) with hE
      have hE52 : E ≤ 52 := by
        by_contra hc
        push_neg at hc
        have h53 : ((53 : Nat) : Int) ≤ E := by omega
        have hmono : (2 : ℚ) ^ ((53 : Nat) : Int) ≤ 2 ^ E := zpow_le_zpow_right₀ (by norm_num) h53
        have hn53 : (n : ℚ) < 2 ^ ((53 : Nat) : Int) := by
          rw [two_zpow_coe]
          exact_mod_cast hlt
        linarith
      set k : Nat := (52 - E).toNat with hk
      have hk' : (k : Int) = 52 - E := by omega
      have hcalc : (n : ℚ) * 2 ^ (52 - E) = ((n * 2 ^ k : Nat) : ℚ) := by
        push_cast
        rw [← hk', zpow_natCast]
      rw [hcalc]
      have hrhe : rhe ((n * 2 ^ k : Nat) : ℚ) = ((n * 2 ^ k : Nat) : Int) := by
        rw [← Int.cast_natCast]
        exact rhe_intCast _
      rw [hrhe]
      have expand : ((n * 2 ^ k : Nat) : ℚ) = (n : ℚ) * 2 ^ (k : Int) := by
        push_cast
        rw [zpow_natCast]
      rw [Int.cast_natCast, expand, mul_assoc, ← two_zpow_add]
      have hzero : (k : Int) + (E - 52) = 0 := by omega
      rw [hzero, zpow_zero, mul_one]
    · -- n = 2^53
      have hq53 : (n : ℚ) = 2 ^ ((53 : Nat) : Int) := by
        rw [two_zpow_coe, heq]
        push_cast
        ring
      have hEeq : ratExp2Q (n : ℚ) = ((53 : Nat) : Int) := by
        obtain ⟨hs1, hs2⟩ := ratExp2Q_spec hq
        refine exp2_unique hs1 hs2 ?_ ?_
        · rw [hq53]
        · rw [hq53]
          exact zpow_lt_zpow_right₀ (by norm_num) (by omega)
      rw [hEeq, hq53]
      have hm : (2 : ℚ) ^ ((53 : Nat) : Int) * 2 ^ (52 - ((53 : Nat) : Int)) =
          ((2 ^ 52 : Int) : ℚ) := by
        rw [← two_zpow_add]
        have he : ((53 : Nat) : Int) + (52 - ((53 : Nat) : Int)) = ((52 : Nat) : Int) := by omega
        rw [he, two_zpow_coe]
      rw [hm, rhe_intCast]
      have hfin : ((2 ^ 52 : Int) : ℚ) = 2 ^ ((52 : Nat) : Int) := (two_zpow_coe 52).symm
      rw [hfin, ← two_zpow_add]
      have he2 : ((52 : Nat) : Int) + (((53 : Nat) : Int) - 52) = ((53 : Nat) : Int) := by omega
      rw [he2]

theorem roundQ_scale {q : ℚ} (hq : 0 < q) (k : Int) : roundQ (q * 2 ^ k) = roundQ q * 2 ^ k := by
  have hqk : 0 < q * 2 ^ k := mul_pos hq (two_zpow_pos k)
  obtain ⟨hs1, hs2⟩ := ratExp2Q_spec hq
  have hEeq : ratExp2Q (q * 2 ^ k) = ratExp2Q q + k := by
    obtain ⟨ht1, ht2⟩ := ratExp2Q_spec hqk
    refine exp2_unique ht1 ht2 ?_ ?_
    · rw [two_zpow_add]
      exact mul_le_mul_of_nonneg_right hs1 (le_of_lt (two_zpow_pos k))
    · have : ratExp2Q q + k + 1 = (ratExp2Q q + 1) + k := by ring
      rw [this, two_zpow_add]
      exact mul_lt_mul_of_pos_right hs2 (two_zpow_pos k)
  unfold roundQ
  rw [if_neg (not_le.mpr hq), if_neg (not_le.mpr hqk), hEeq]
  have hmain : q * 2 ^ k * 2 ^ (52 - (ratExp2Q q + k)) = q * 2 ^ (52 - ratExp2Q q) := by
    rw [mul_assoc, ← two_zpow_add]
    congr 2
    ring
  rw [hmain, mul_assoc, ← two_zpow_add]
  congr 2
  ring

theorem roundQ_mono {q q' : ℚ} (h : q ≤ q') : roundQ q ≤ roundQ q' := by
  by_cases h0 : q ≤ 0
  · calc roundQ q = 0 := by unfold roundQ; rw [if_pos h0]
      _ ≤ roundQ q' := roundQ_nonneg q'
  · have hq : 0 < q := not_le.mp h0
    have hq' : 0 < q' := lt_of_lt_of_le hq h
    obtain ⟨hs1, hs2⟩ := ratExp2Q_spec hq
    obtain ⟨hs1', hs2'⟩ := ratExp2Q_spec hq'
    set E := ratExp2Q q with hE
    set E' := ratExp2Q q' with hE'
    have hEE' : E ≤ E' := by
      by_contra hc
      push_neg at hc
      have h1 : E' + 1 ≤ E := by omega
      have h2 : (2 : ℚ) ^ (E' + 1) ≤ 2 ^ E := zpow_le_zpow_right₀ (by norm_num) h1
      linarith
    unfold roundQ
    rw [if_neg (not_le.mpr hq), if_neg (not_le.mpr hq'), ← hE, ← hE']
    rcases eq_or_lt_of_le hEE' with hEq | hLt
    · rw [← hEq]
      apply mul_le_mul_of_nonneg_right _ (le_of_lt (two_zpow_pos _))
      have : rhe (q * 2 ^ (52 - E)) ≤ rhe (q' * 2 ^ (52 - E)) :=
        rhe_mono (mul_le_mul_of_nonneg_right h (le_of_lt (two_zpow_pos _)))
      exact_mod_cast this
    · -- E < E' : roundQ q ≤ 2^(E+1) ≤ 2^E' ≤ roundQ q'
      have hub : (rhe (q * 2 ^ (52 - E)) : ℚ) * 2 ^ (E - 52) ≤ 2 ^ (E + 1) := by
        have hm : q * 2 ^ (52 - E) < ((2 ^ 53 : Int) : ℚ) := by
          have step : q * 2 ^ (52 - E) < 2 ^ (E + 1) * 2 ^ (52 - E) :=
            mul_lt_mul_of_pos_right hs2 (two_zpow_pos _)
          have e1 : (2 : ℚ) ^ (E + 1) * 2 ^ (52 - E) = ((2 ^ 53 : Int) : ℚ) := by
            rw [← two_zpow_add]
            have he : E + 1 + (52 - E) = ((53 : Nat) : Int) := by omega
            rw [he, two_zpow_coe]
          rw [e1] at step
          exact step
        have hfl : ⌊q * 2 ^ (52 - E)⌋ < 2 ^ 53 := Int.floor_lt.mpr hm
        have hrhe : rhe (q * 2 ^ (52 - E)) ≤ 2 ^ 53 := by
          have := rhe_le_floor_add_one (q * 2 ^ (52 - E))
          omega
        calc (rhe (q * 2 ^ (52 - E)) : ℚ) * 2 ^ (E - 52)
            ≤ ((2 ^ 53 : Int) : ℚ) * 2 ^ (E - 52) := by
              apply mul_le_mul_of_nonneg_right _ (le_of_lt (two_zpow_pos _))
              exact_mod_cast hrhe
          _ = 2 ^ (E + 1) := by
              rw [← two_zpow_coe, ← two_zpow_add]
              congr 1
              omega
      have hlb : (2 : ℚ) ^ E' ≤ (rhe (q' * 2 ^ (52 - E')) : ℚ) * 2 ^ (E' - 52) := by
        have hm : ((2 ^ 52 : Int) : ℚ) ≤ q' * 2 ^ (52 - E') := by
          have step : (2 : ℚ) ^ E' * 2 ^ (52 - E') ≤ q' * 2 ^ (52 - E') :=
            mul_le_mul_of_nonneg_right hs1' (le_of_lt (two_zpow_pos _))
          have e1 : (2 : ℚ) ^ E' * 2 ^ (52 - E') = ((2 ^ 52 : Int) : ℚ) := by
            rw [← two_zpow_add]
            have he : E' + (52 - E') = ((52 : Nat) : Int) := by omega
            rw [he, two_zpow_coe]
          rw [e1] at step
          exact step
        have hfl : (2 ^ 52 : Int) ≤ ⌊q' * 2 ^ (52 - E')⌋ := Int.le_floor.mpr hm
        have hrhe : (2 ^ 52 : Int) ≤ rhe (q' * 2 ^ (52 - E')) :=
          le_trans hfl (rhe_floor_le _)
        calc (2 : ℚ) ^ E' = ((2 ^ 52 : Int) : ℚ) * 2 ^ (E' - 52) := by
              rw [← two_zpow_coe, ← two_zpow_add]
              congr 1
              omega
          _ ≤ (rhe (q' * 2 ^ (52 - E')) : ℚ) * 2 ^ (E' - 52) := by
              apply mul_le_mul_of_nonneg_right _ (le_of_lt (two_zpow_pos _))
              exact_mod_cast hrhe
      have hmid : (2 : ℚ) ^ (E + 1) ≤ 2 ^ E' := zpow_le_zpow_right₀ (by norm_num) (by omega)
      linarith

theorem floor_nat_div (a b : Nat) (hb : 0 < b) : ⌊(a : ℚ) / b⌋ = ((a / b : Nat) : Int) := by
  have hbq : (0 : ℚ) < b := by exact_mod_cast hb
  rw [Int.floor_eq_iff]
  constructor
  · rw [Int.cast_natCast, le_div_iff₀ hbq]
    exact_mod_cast Nat.div_mul_le_self a b
  · rw [Int.cast_natCast, div_lt_iff₀ hbq]
    have h1 := Nat.div_add_mod a b
    have h2 : a % b < b := Nat.mod_lt a hb
    have h3 : a < (a / b + 1) * b := by
      calc a = b * (a / b) + a % b := h1.symm
        _ < b * (a / b) + b := by omega
        _ = (a / b + 1) * b := by ring
    exact_mod_cast h3

theorem dval_pair (m : Nat) (e : Int) : dval (m, e) = (m : ℚ) * 2 ^ e := rfl

theorem dval_roundRat64 (a b : Nat) (ha : 1 ≤ a) (hb : 1 ≤ b) :
    dval (roundRat64 a b) = roundQ ((a : ℚ) / b) := by
  have hbq : (0 : ℚ) < b := by exact_mod_cast hb
  have haq : (0 : ℚ) < a := by exact_mod_cast ha
  have hq : (0 : ℚ) < (a : ℚ) / b := div_pos haq hbq
  obtain ⟨hn1, hn2⟩ := ratExp2N_spec a b ha hb
  obtain ⟨hq1, hq2⟩ := ratExp2Q_spec hq
  have hE : ratExp2Q ((a : ℚ) / b) = ratExp2N a b := exp2_unique hq1 hq2 hn1 hn2
  set E := ratExp2N a b with hEdef
  have hB : 0 < b * 2 ^ (E - 52).toNat := by positivity
  have hkey : ((a * 2 ^ (52 - E).toNat : Nat) : ℚ) / ((b * 2 ^ (E - 52).toNat : Nat) : ℚ)
      = (a : ℚ) / b * 2 ^ (52 - E) := by
    push_cast
    rw [mul_div_mul_comm]
    congr 1
    have he : E - 52 = -(52 - E) := by ring
    rw [he]
    exact zpow_toNat_sub (52 - E)
  have hcast : ((rneDiv (a * 2 ^ (52 - E).toNat) (b * 2 ^ (E - 52).toNat) : Nat) : Int)
      = rhe ((a : ℚ) / b * 2 ^ (52 - E)) := by
    rw [rneDiv_eq_rhe _ _ hB, hkey]
  unfold roundRat64 dval
  simp only [← hEdef]
  rw [roundQ, if_neg (not_le.mpr hq), hE]
  congr 1
  exact_mod_cast hcast

theorem dval_f64FromNat (n : Nat) : dval (f64FromNat n) = roundQ (n : ℚ) := by
  unfold f64FromNat
  by_cases h0 : n = 0
  · subst h0
    simp [dval, roundQ]
  · rw [if_neg h0]
    have h := dval_roundRat64 n 1 (by omega) le_rfl
    rw [h]
    norm_num

theorem dval_f64Mul (x y : Nat × Int) : dval (f64Mul x y) = roundQ (dval x * dval y) := by
  by_cases hx : x.1 = 0
  · have hcond : (decide (x.1 = 0) || decide (y.1 = 0)) = true := by simp [hx]
    have hred : f64Mul x y = (0, 0) := by unfold f64Mul; rw [if_pos hcond]
    have hdx : dval x = 0 := by unfold dval; rw [hx]; norm_num
    rw [hred, hdx, zero_mul]
    simp [dval, roundQ]
  · by_cases hy : y.1 = 0
    · have hcond : (decide (x.1 = 0) || decide (y.1 = 0)) = true := by simp [hy]
      have hred : f64Mul x y = (0, 0) := by unfold f64Mul; rw [if_pos hcond]
      have hdy : dval y = 0 := by unfold dval; rw [hy]; norm_num
      rw [hred, hdy, mul_zero]
      simp [dval, roundQ]
    · have hcond : (decide (x.1 = 0) || decide (y.1 = 0)) = false := by simp [hx, hy]
      have hred : f64Mul x y =
          ((roundRat64 (x.1 * y.1) 1).1, (roundRat64 (x.1 * y.1) 1).2 + x.2 + y.2) := by
        unfold f64Mul
        rw [hcond]
        simp
      have hpos : 0 < x.1 * y.1 := Nat.mul_pos (Nat.pos_of_ne_zero hx) (Nat.pos_of_ne_zero hy)
      have hp : (0 : ℚ) < ((x.1 * y.1 : Nat) : ℚ) := by exact_mod_cast hpos
      have hdv : dval (roundRat64 (x.1 * y.1) 1) = roundQ ((x.1 * y.1 : Nat) : ℚ) := by
        rw [dval_roundRat64 _ 1 hpos le_rfl]
        norm_num
      have hprod : dval x * dval y = ((x.1 * y.1 : Nat) : ℚ) * 2 ^ (x.2 + y.2) := by
        unfold dval
        push_cast
        rw [two_zpow_add]
        ring
      rw [hred, hprod, roundQ_scale hp, ← hdv]
      unfold dval
      have he : (roundRat64 (x.1 * y.1) 1).2 + x.2 + y.2
          = (roundRat64 (x.1 * y.1) 1).2 + (x.2 + y.2) := by ring
      rw [he, two_zpow_add]
      ring

theorem dval_f64Div (x y : Nat × Int) (hy : 0 < y.1) :
    dval (f64Div x y) = roundQ (dval x / dval y) := by
  by_cases hx : x.1 = 0
  · have hred : f64Div x y = (0, 0) := by unfold f64Div; rw [if_pos hx]
    have hdx : dval x = 0 := by unfold dval; rw [hx]; norm_num
    rw [hred, hdx, zero_div]
    simp [dval, roundQ]
  · have hred : f64Div x y =
        ((roundRat64 x.1 y.1).1, (roundRat64 x.1 y.1).2 + x.2 - y.2) := by
      unfold f64Div
      rw [if_neg hx]
    have hx0 : (0 : ℚ) < (x.1 : ℚ) := by exact_mod_cast Nat.pos_of_ne_zero hx
    have hy0 : (0 : ℚ) < (y.1 : ℚ) := by exact_mod_cast hy
    have hq : (0 : ℚ) < (x.1 : ℚ) / (y.1 : ℚ) := div_pos hx0 hy0
    have hdv : dval (roundRat64 x.1 y.1) = roundQ ((x.1 : ℚ) / y.1) :=
      dval_roundRat64 x.1 y.1 (by omega) (by omega)
    have hquot : dval x / dval y = ((x.1 : ℚ) / y.1) * 2 ^ (x.2 - y.2) := by
      unfold dval
      rw [zpow_sub₀ (by norm_num : (2 : ℚ) ≠ 0), div_mul_div_comm]
    rw [hred, hquot, roundQ_scale hq, ← hdv]
    unfold dval
    have he : (roundRat64 x.1 y.1).2 + x.2 - y.2
        = (roundRat64 x.1 y.1).2 + (x.2 - y.2) := by ring
    rw [he, two_zpow_add]
    ring

theorem f64TruncToU64_eq (x : Nat × Int) :
    f64TruncToU64 x = min (2 ^ 64 - 1) (Int.toNat ⌊dval x⌋) := by
  unfold f64TruncToU64 dval
  by_cases hs : 0 ≤ x.2
  · rw [if_pos hs]
    have hv : (x.1 : ℚ) * 2 ^ x.2 = ((x.1 * 2 ^ x.2.toNat : Nat) : ℚ) := by
      push_cast
      congr 1
      rw [← zpow_natCast (2 : ℚ) x.2.toNat]
      congr 1
      omega
    rw [hv, Int.floor_natCast, Int.toNat_natCast]
  · rw [if_neg hs]
    have hv : (x.1 : ℚ) * 2 ^ x.2 = (x.1 : ℚ) / ((2 ^ (-x.2).toNat : Nat) : ℚ) := by
      rw [eq_div_iff (by positivity)]
      push_cast
      rw [mul_assoc, ← zpow_natCast (2 : ℚ) (-x.2).toNat, ← two_zpow_add]
      have he : x.2 + (((-x.2).toNat : Nat) : Int) = 0 := by omega
      rw [he, zpow_zero, mul_one]
    rw [hv, floor_nat_div _ _ (by positivity), Int.toNat_natCast]

theorem f64FromNat_10000_pos : 0 < (f64FromNat 10000).1 := by decide

theorem calc_min_eq (a s : Nat) :
    calculate_min_amount_out a s =
      min (2 ^ 64 - 1) (Int.toNat ⌊roundQ (roundQ (a : ℚ) *
        roundQ ((((10000 + 65536 - s) % 65536 : Nat) : ℚ) / ((10000 : Nat) : ℚ)))⌋) := by
  unfold calculate_min_amount_out
  rw [f64TruncToU64_eq, dval_f64Mul, dval_f64FromNat,
    dval_f64Div _ _ f64FromNat_10000_pos, dval_f64FromNat, dval_f64FromNat]
  have hd : ((10000 + 65536 - s) % 65536 : Nat) ≤ 2 ^ 53 := by
    have h1 : ((10000 + 65536 - s) % 65536 : Nat) < 65536 := Nat.mod_lt _ (by norm_num)
    have h2 : (65536 : Nat) ≤ 2 ^ 53 := by norm_num
    omega
  rw [roundQ_natCast hd, roundQ_natCast (show (10000 : Nat) ≤ 2 ^ 53 by norm_num)]

theorem calc_min_mono (a : Nat) {s s' : Nat} (h1 : s ≤ s') (h2 : s' ≤ 10000) :
    calculate_min_amount_out a s' ≤ calculate_min_amount_out a s := by
  rw [calc_min_eq, calc_min_eq]
  apply min_le_min le_rfl
  apply Int.toNat_le_toNat
  apply Int.floor_le_floor
  apply roundQ_mono
  apply mul_le_mul_of_nonneg_left _ (roundQ_nonneg _)
  apply roundQ_mono
  apply (div_le_div_iff_of_pos_right (show (0:ℚ) < ((10000 : Nat) : ℚ) by norm_num)).mpr
  exact_mod_cast (show ((10000 + 65536 - s') % 65536) ≤ ((10000 + 65536 - s) % 65536 : Nat) by omega)

theorem calc_min_zero (a : Nat) (ha : a ≤ 2 ^ 53) : calculate_min_amount_out a 0 = a := by
  rw [calc_min_eq]
  have hdiff : ((10000 + 65536 - 0) % 65536 : Nat) = 10000 := by norm_num
  rw [hdiff]
  have hq : ((10000 : Nat) : ℚ) / ((10000 : Nat) : ℚ) = 1 := by norm_num
  rw [hq]
  have h1 : roundQ (1 : ℚ) = 1 := by
    have h := roundQ_natCast (n := 1) (by norm_num)
    simpa using h
  rw [h1, mul_one, roundQ_natCast ha]
  have h2 : roundQ ((a : Nat) : ℚ) = ((a : Nat) : ℚ) := roundQ_natCast ha
  rw [h2, Int.floor_natCast, Int.toNat_natCast]
  have h3 : (2 : Nat) ^ 53 ≤ 2 ^ 64 - 1 := by norm_num
  omega

/-! ## Claim C3 -/

/-- Claim C3: for every `PoolCreationEvent` whose creator address is not in the
configured blacklist, `evaluate_pool` returns `Ok(true)`; `check_liquidity` and
`check_rug_indicators` unconditionally return `Ok(true)`, so the blacklist is
the only check that can ever reject an event. -/
theorem C3_nonblacklisted_pool_passes (config : Config) (event : PoolCreationEvent)
    (h : config.blacklisted_creators.contains event.creator.toBase58 = false) :
    (evaluate_pool config event).1 = Except.ok true ∧
    (∀ p t, check_liquidity p t = Except.ok true) ∧
    (∀ p, check_rug_indicators p = Except.ok true) := by
  refine ⟨?_, fun p t => rfl, fun p => rfl⟩
  have h' : event.creator.toBase58 ∉ config.blacklisted_creators := by simpa using h
  simp [evaluate_pool, check_liquidity, check_rug_indicators, h']

/-- Witness for C3 at the default configuration and a concrete event. -/
theorem C3_witness :
    (Config.default.blacklisted_creators.contains
      (Pubkey.toBase58 ⟨List.replicate 32 0⟩) = false) ∧
    (evaluate_pool Config.default
      { pool := ⟨List.replicate 32 0⟩, amm := ⟨List.replicate 32 0⟩,
        creator := ⟨List.replicate 32 0⟩, program_id := ⟨List.replicate 32 0⟩,
        signature := "sig", slot := 0, timestamp := 0,
        pool_type := PoolType.CPMM }).1 = Except.ok true := by
  refine ⟨by decide, ?_⟩
  exact (C3_nonblacklisted_pool_passes Config.default _ (by decide)).1

/-! ## Claim C8 -/

/-- Claim C8: for every event whose creator is in the blacklist,
`evaluate_pool` returns `Ok(false)` immediately with no check executed (empty
check trace, hence no network read); otherwise the checks run in the fixed
order blacklist → liquidity → rug. -/
theorem C8_blacklist_short_circuit (config : Config) (event : PoolCreationEvent) :
    (config.blacklisted_creators.contains event.creator.toBase58 = true →
      evaluate_pool config event = (Except.ok false, [])) ∧
    (config.blacklisted_creators.contains event.creator.toBase58 = false →
      (evaluate_pool config event).2 = [FilterCheck.liquidity, FilterCheck.rug]) := by
  constructor
  · intro h
    have h' : event.creator.toBase58 ∈ config.blacklisted_creators := by simpa using h
    simp [evaluate_pool, h']
  · intro h
    have h' : event.creator.toBase58 ∉ config.blacklisted_creators := by simpa using h
    simp [evaluate_pool, check_liquidity, check_rug_indicators, h']

/-- Witness for C8: a blacklisted creator is rejected with no checks run. -/
theorem C8_witness :
    evaluate_pool
      { Config.default with blacklisted_creators := ["11111111111111111111111111111111"] }
      { pool := ⟨List.replicate 32 0⟩, amm := ⟨List.replicate 32 0⟩,
        creator := ⟨List.replicate 32 0⟩, program_id := ⟨List.replicate 32 0⟩,
        signature := "sig", slot := 0, timestamp := 0,
        pool_type := PoolType.AMMv4 } = (Except.ok false, []) :=
  (C8_blacklist_short_circuit _ _).1 (by decide)

/-! ## Claim C10 -/

/-- Claim C10: `is_pool_initialization` accepts every byte string of length at
least 8 whose first 8 bytes are zero, because `CPMM_INITIALIZE` is the
placeholder `[0; 8]`; `INITIALIZE` and `INITIALIZE2` are byte-for-byte equal,
so recognition accepts exactly two distinct 8-byte discriminator values. -/
theorem C10_zero_discriminator_matches :
    (∀ data : List Nat, 8 ≤ data.length → data.take 8 = List.replicate 8 0 →
      is_pool_initialization data = true) ∧
    discriminators.INITIALIZE = discriminators.INITIALIZE2 ∧
    (∀ data : List Nat, is_pool_initialization data = true ↔
      8 ≤ data.length ∧ (data.take 8 = discriminators.INITIALIZE ∨
        data.take 8 = discriminators.CPMM_INITIALIZE)) := by
  refine ⟨?_, rfl, ?_⟩
  · intro data hlen hzero
    simp only [is_pool_initialization, if_neg (by omega : ¬ data.length < 8)]
    simp [hzero, discriminators.CPMM_INITIALIZE]
  · intro data
    constructor
    · intro h
      by_cases hlen : data.length < 8
      · simp [is_pool_initialization, hlen] at h
      · simp only [is_pool_initialization, if_neg hlen] at h
        simp only [Bool.or_eq_true, beq_iff_eq] at h
        refine ⟨by omega, ?_⟩
        rcases h with (h | h) | h
        · exact Or.inl h
        · exact Or.inl h
        · exact Or.inr h
    · rintro ⟨hlen, h⟩
      simp only [is_pool_initialization, if_neg (by omega : ¬ data.length < 8)]
      simp only [Bool.or_eq_true, beq_iff_eq]
      rcases h with h | h
      · exact Or.inl (Or.inl h)
      · exact Or.inr h

/-- Witness for C10 at concrete byte strings. -/
theorem C10_witness :
    is_pool_initialization [0, 0, 0, 0, 0, 0, 0, 0, 99] = true ∧
    (is_pool_initialization [175, 175, 109, 31, 13, 152, 155, 237] = true ↔
      8 ≤ ([175, 175, 109, 31, 13, 152, 155, 237] : List Nat).length ∧
        (([175, 175, 109, 31, 13, 152, 155, 237] : List Nat).take 8 = discriminators.INITIALIZE ∨
          ([175, 175, 109, 31, 13, 152, 155, 237] : List Nat).take 8 =
            discriminators.CPMM_INITIALIZE)) :=
  ⟨C10_zero_discriminator_matches.1 _ (by decide) (by decide),
   C10_zero_discriminator_matches.2.2 _⟩



/-! ## Claim C7 -/

/-- `parse_pool_creation` yields `none` when the account lookup at any of the
three extracted positions is out of range. -/
theorem parse_pool_creation_oob (accounts : List Pubkey) (idxs : List Nat) (i : Nat)
    (hi : i < 3) (h : accounts.get? (idxs.getD i 0) = none) :
    parse_pool_creation accounts idxs = none := by
  unfold parse_pool_creation
  split_ifs with hlen
  · rfl
  · rw [List.get?_eq_getElem?, List.getD_eq_getElem?_getD] at h
    interval_cases i
    · simp [h]
    · cases h0 : accounts[idxs[0]?.getD 0]? <;> simp [h0, h]
    · cases h0 : accounts[idxs[0]?.getD 0]? <;>
        cases h1 : accounts[idxs[1]?.getD 0]? <;> simp [h0, h1, h]

/-- `parse_pool_instruction` yields `none` when the key lookup at any of the
three extracted positions is out of range. -/
theorem parse_pool_instruction_key_oob (data : String) (keys : List String)
    (idxs : List Nat) (i : Nat) (hi : i < 3) (h : keys.get? (idxs.getD i 0) = none) :
    parse_pool_instruction data keys idxs = none := by
  unfold parse_pool_instruction
  cases hdec : base58Decode data with
  | none => rfl
  | some decoded =>
    simp only [Option.bind_eq_bind, Option.some_bind]
    split_ifs with h1 h2
    · rfl
    · rfl
    · rw [List.get?_eq_getElem?, List.getD_eq_getElem?_getD] at h
      interval_cases i
      · simp [h]
      · cases h0 : keys[idxs[0]?.getD 0]? with
        | none => simp [h0]
        | some k0 => cases hp0 : Pubkey.fromStr k0 <;> simp [h0, hp0, h]
      · cases h0 : keys[idxs[0]?.getD 0]? with
        | none => simp [h0]
        | some k0 =>
          cases hp0 : Pubkey.fromStr k0 with
          | none => simp [h0, hp0]
          | some p0 =>
            cases hk1 : keys[idxs[1]?.getD 0]? with
            | none => simp [h0, hp0, hk1]
            | some k1 => cases hp1 : Pubkey.fromStr k1 <;> simp [h0, hp0, hk1, hp1, h]

/-- `parse_pool_instruction` yields `none` when the key string at any of the
three extracted positions fails `Pubkey::from_str`. -/
theorem parse_pool_instruction_key_unparsable (data : String) (keys : List String)
    (idxs : List Nat) (i : Nat) (k : String) (hi : i < 3)
    (hk : keys.get? (idxs.getD i 0) = some k) (hp : Pubkey.fromStr k = none) :
    parse_pool_instruction data keys idxs = none := by
  unfold parse_pool_instruction
  cases hdec : base58Decode data with
  | none => rfl
  | some decoded =>
    simp only [Option.bind_eq_bind, Option.some_bind]
    split_ifs with h1 h2
    · rfl
    · rfl
    · rw [List.get?_eq_getElem?, List.getD_eq_getElem?_getD] at hk
      interval_cases i
      · simp [hk, hp]
      · cases h0 : keys[idxs[0]?.getD 0]? with
        | none => simp [h0]
        | some k0 => cases hp0 : Pubkey.fromStr k0 <;> simp [h0, hp0, hk, hp]
      · cases h0 : keys[idxs[0]?.getD 0]? with
        | none => simp [h0]
        | some k0 =>
          cases hp0 : Pubkey.fromStr k0 with
          | none => simp [h0, hp0]
          | some p0 =>
            cases hk1 : keys[idxs[1]?.getD 0]? with
            | none => simp [h0, hp0, hk1]
            | some k1 => cases hp1 : Pubkey.fromStr k1 <;> simp [h0, hp0, hk1, hp1, hk, hp]

/-- Claim C7: the parse functions are total (they are plain Lean functions,
so they cannot panic) and return the no-event value on malformed input:
`is_pool_initialization` is false on data shorter than 8 bytes;
`parse_pool_creation` is `none` on a short index list or an out-of-range
index at any of the three extracted positions; `parse_pool_instruction` is
`none` on undecodable instruction data, a short index list, an out-of-range
index at any of the three extracted positions, or an address string that
fails to parse at any of the three extracted positions. -/
theorem C7_codec_total_on_malformed_input :
    (∀ data : List Nat, data.length < 8 → is_pool_initialization data = false) ∧
    (∀ accounts idxs, idxs.length < 5 → parse_pool_creation accounts idxs = none) ∧
    (∀ (accounts : List Pubkey) (idxs : List Nat) (i : Nat), i < 3 →
      accounts.get? (idxs.getD i 0) = none → parse_pool_creation accounts idxs = none) ∧
    (∀ (data : String) (keys : List String) (idxs : List Nat),
      base58Decode data = none → parse_pool_instruction data keys idxs = none) ∧
    (∀ (data : String) (keys : List String) (idxs : List Nat),
      idxs.length < 4 → parse_pool_instruction data keys idxs = none) ∧
    (∀ (data : String) (keys : List String) (idxs : List Nat) (i : Nat), i < 3 →
      keys.get? (idxs.getD i 0) = none → parse_pool_instruction data keys idxs = none) ∧
    (∀ (data : String) (keys : List String) (idxs : List Nat) (i : Nat) (k : String), i < 3 →
      keys.get? (idxs.getD i 0) = some k → Pubkey.fromStr k = none →
      parse_pool_instruction data keys idxs = none) := by
  refine ⟨?_, ?_, ?_, ?_, ?_, ?_, ?_⟩
  · intro data h
    simp [is_pool_initialization, h]
  · intro accounts idxs h
    simp [parse_pool_creation, h]
  · intro accounts idxs i hi h
    exact parse_pool_creation_oob accounts idxs i hi h
  · intro data keys idxs h
    simp [parse_pool_instruction, h]
  · intro data keys idxs h
    unfold parse_pool_instruction
    cases hdec : base58Decode data with
    | none => rfl
    | some decoded =>
      simp only [Option.bind_eq_bind, Option.some_bind]
      split_ifs with h1 h2 <;> first | rfl | omega
  · intro data keys idxs i hi h
    exact parse_pool_instruction_key_oob data keys idxs i hi h
  · intro data keys idxs i k hi hk hp
    exact parse_pool_instruction_key_unparsable data keys idxs i k hi hk hp

/-- Witness for C7 at concrete malformed inputs, covering an out-of-range
index at positions 0 and 1, an out-of-range key at position 2, and an
unparsable address string. -/
theorem C7_witness :
    is_pool_initialization [175, 175] = false ∧
    parse_pool_creation [⟨List.replicate 32 0⟩] [0] = none ∧
    parse_pool_creation [⟨List.replicate 32 0⟩] [0, 5, 0, 0, 0] = none ∧
    parse_pool_creation [] [7, 0, 0, 0, 0] = none ∧
    parse_pool_instruction "!badbase58" [] [0, 1, 2, 3] = none ∧
    parse_pool_instruction "3" ["k0", "k1"] [0, 1, 5, 0] = none ∧
    parse_pool_instruction "3" ["notakey"] [0, 0, 0, 0] = none := by
  refine ⟨?_, ?_, ?_, ?_, ?_, ?_, ?_⟩
  · exact C7_codec_total_on_malformed_input.1 _ (by decide)
  · exact C7_codec_total_on_malformed_input.2.1 _ _ (by decide)
  · exact C7_codec_total_on_malformed_input.2.2.1 _ _ 1 (by omega) (by decide)
  · exact C7_codec_total_on_malformed_input.2.2.1 _ _ 0 (by omega) (by decide)
  · exact C7_codec_total_on_malformed_input.2.2.2.1 _ _ _ (by decide)
  · exact C7_codec_total_on_malformed_input.2.2.2.2.2.1 _ _ _ 2 (by omega) (by decide)
  · exact C7_codec_total_on_malformed_input.2.2.2.2.2.2 _ _ _ 0 "notakey" (by omega)
      (by decide) (by decide)

/-! ## Claim C6 -/

/-- The decoded AMM v4 program id. -/
def raydiumAmmV4Pubkey : Pubkey :=
  ⟨[1, 78, 199, 228, 124, 132, 118, 31, 247, 202, 9, 80, 177, 137, 64, 255,
    240, 10, 109, 64, 176, 78, 104, 255, 189, 199, 207, 38, 248, 182, 138, 205]⟩

/-- The program-id constant of `src/config.rs` base58-decodes to 32 bytes. -/
theorem amm_v4_program_id_parses :
    Pubkey.fromStr RAYDIUM_AMM_V4_PROGRAM_ID = some raydiumAmmV4Pubkey := by decide

/-- Claim C6 (amended): `build_raydium_swap_instruction` produces instruction
data `SWAP discriminator (8 bytes) ++ amount_in LE (8 bytes) ++
min_amount_out LE (8 bytes)` (24 bytes) and the fixed account list
user signer, amm (not the unused `pool` argument), authority, open-orders,
target-orders, the two pool token accounts, the two user token accounts, the
external market program, the market, and the system program. -/
theorem C6_amended_swap_layout
    (user pool amm amm_authority amm_open_orders amm_target_orders
     pool_coin pool_pc serum_program serum_market user_source user_dest
     user_source_owner : Pubkey) (amount_in min_amount_out : Nat) :
    build_raydium_swap_instruction user pool amm amm_authority amm_open_orders
      amm_target_orders pool_coin pool_pc serum_program serum_market
      user_source user_dest user_source_owner amount_in min_amount_out =
    Except.ok
      { program_id := raydiumAmmV4Pubkey
        accounts :=
          [ AccountMeta.new user true,
            AccountMeta.new_readonly amm false,
            AccountMeta.new_readonly amm_authority false,
            AccountMeta.new amm_open_orders false,
            AccountMeta.new amm_target_orders false,
            AccountMeta.new pool_coin false,
            AccountMeta.new pool_pc false,
            AccountMeta.new user_source false,
            AccountMeta.new user_dest false,
            AccountMeta.new_readonly serum_program false,
            AccountMeta.new_readonly serum_market false,
            AccountMeta.new_readonly systemProgramId false ]
        data := discriminators.SWAP ++ toLeBytes8 amount_in ++ toLeBytes8 min_amount_out } ∧
    (discriminators.SWAP ++ toLeBytes8 amount_in ++ toLeBytes8 min_amount_out).length = 24 := by
  constructor
  · unfold build_raydium_swap_instruction
    rw [amm_v4_program_id_parses]
  · simp [discriminators.SWAP, toLeBytes8]

/-- Counterexample to C6 as stated: with distinct `pool` and `amm` arguments
the second account is the `amm` argument, not `pool`. -/
theorem C6_counterexample :
    (build_raydium_swap_instruction
        ⟨List.replicate 32 0⟩ ⟨List.replicate 31 0 ++ [1]⟩ ⟨List.replicate 31 0 ++ [2]⟩
        ⟨List.replicate 32 0⟩ ⟨List.replicate 32 0⟩ ⟨List.replicate 32 0⟩
        ⟨List.replicate 32 0⟩ ⟨List.replicate 32 0⟩ ⟨List.replicate 32 0⟩
        ⟨List.replicate 32 0⟩ ⟨List.replicate 32 0⟩ ⟨List.replicate 32 0⟩
        ⟨List.replicate 32 0⟩ 5 7).map
      (fun ix => ix.accounts.getD 1 (AccountMeta.new ⟨[]⟩ true)) =
      Except.ok (AccountMeta.new_readonly ⟨List.replicate 31 0 ++ [2]⟩ false) ∧
    (⟨List.replicate 31 0 ++ [2]⟩ : Pubkey) ≠ ⟨List.replicate 31 0 ++ [1]⟩ := by
  constructor
  · decide
  · decide

/-! ## Claim C2 -/

/-- Claim C2 (amended): with both monitors disabled, `start_detection` fails
with the configuration error only on the gRPC path with the WebSocket
fallback disabled; with no gRPC endpoint, or with the fallback enabled, it
returns the WebSocket stream successfully — no emptiness check happens on
that path. -/
theorem C2_amended_empty_monitored_set (config : Config) (connect_ok subscribe_ok : Bool)
    (hv4 : config.monitor_amm_v4 = false) (hcp : config.monitor_cpmm = false) :
    ((∃ u, config.yellowstone_grpc_url = some u) → connect_ok = true →
      config.use_websocket_fallback = false →
      start_detection config connect_ok subscribe_ok =
        Except.error "No Raydium programs enabled for monitoring") ∧
    (config.yellowstone_grpc_url = none →
      start_detection config connect_ok subscribe_ok = Except.ok DetectionMethod.websocket) ∧
    ((∃ u, config.yellowstone_grpc_url = some u) → config.use_websocket_fallback = true →
      start_detection config connect_ok subscribe_ok = Except.ok DetectionMethod.websocket) := by
  refine ⟨?_, ?_, ?_⟩
  · rintro ⟨u, hu⟩ hc hf
    simp [start_detection, hu, start_geyser_stream, hv4, hcp, hc, hf,
      start_websocket_subscription]
  · intro hu
    simp [start_detection, hu, start_websocket_subscription]
  · rintro ⟨u, hu⟩ hf
    cases hc : connect_ok with
    | false =>
      simp [start_detection, hu, start_geyser_stream, hf, start_websocket_subscription]
    | true =>
      simp [start_detection, hu, start_geyser_stream, hv4, hcp, hf,
        start_websocket_subscription]

/-- Counterexample to C2 as stated: with the monitored set empty and no gRPC
endpoint configured, `start_detection` succeeds instead of failing with a
configuration error. -/
theorem C2_counterexample :
    start_detection
      { Config.default with monitor_amm_v4 := false, monitor_cpmm := false }
      true true = Except.ok DetectionMethod.websocket := by decide

/-- Witness for C2 (amended): the configuration error does surface when gRPC
is configured, connects, and fallback is disabled. -/
theorem C2_witness :
    start_detection
      { Config.default with
          yellowstone_grpc_url := some "http://grpc.example"
          use_websocket_fallback := false
          monitor_amm_v4 := false
          monitor_cpmm := false }
      true true = Except.error "No Raydium programs enabled for monitoring" :=
  (C2_amended_empty_monitored_set _ true true rfl rfl).1 ⟨_, rfl⟩ rfl rfl



/-! ## Retry-loop lemmas (claims C1 and C9) -/

/-- If every attempt before `k` fails and attempt `k` is accepted, the retry
loop returns `Ok(sig)` whatever the confirmation polls say. -/
theorem send_retry_go_accepted (send : Nat → SendAttemptResult) (polls : Nat → PollStatus)
    (m k : Nat) (sig : String) (hacc : send k = SendAttemptResult.accepted sig) :
    ∀ (remaining attempt : Nat) (le : Option String) (ds : List Nat),
      attempt ≤ k → k < attempt + remaining →
      (∀ j, attempt ≤ j → j < k → ∃ e, send j = SendAttemptResult.failed e) →
      (send_retry_go send polls m remaining attempt le ds).result = Except.ok sig := by
  intro remaining
  induction remaining with
  | zero => intro attempt le ds h1 h2 h3; omega
  | succ r ih =>
    intro attempt le ds h1 h2 h3
    rcases eq_or_lt_of_le h1 with heq | hlt
    · subst heq
      simp [send_retry_go, hacc]
    · obtain ⟨e, he⟩ := h3 attempt le_rfl hlt
      simp only [send_retry_go, he]
      exact ih (attempt + 1) (some e) _ (by omega) (by omega)
        (fun j hj1 hj2 => h3 j (by omega) hj2)

/-- Loop invariant for `send_retry_go`: the attempt count never exceeds
`max_retries`, the slept delays are exactly `1000·1, 1000·2, …` per completed
failed attempt, and an error result implies every attempt in
`1..=max_retries` failed. -/
theorem send_retry_go_spec (send : Nat → SendAttemptResult) (polls : Nat → PollStatus)
    (m : Nat) :
    ∀ (remaining attempt : Nat) (le : Option String) (ds : List Nat),
      attempt + remaining = m + 1 → 1 ≤ attempt →
      ds = (List.range' 1 (min (attempt - 1) (m - 1))).map (fun i => 1000 * i) →
      (∀ j, 1 ≤ j → j < attempt → ∃ e, send j = SendAttemptResult.failed e) →
      (send_retry_go send polls m remaining attempt le ds).attempts ≤ m ∧
      (send_retry_go send polls m remaining attempt le ds).delays =
        (List.range' 1 ((send_retry_go send polls m remaining attempt le ds).attempts - 1)).map
          (fun i => 1000 * i) ∧
      (∀ e, (send_retry_go send polls m remaining attempt le ds).result = Except.error e →
        ∀ j, 1 ≤ j → j ≤ m → ∃ msg, send j = SendAttemptResult.failed msg) := by
  intro remaining
  induction remaining with
  | zero =>
    intro attempt le ds hfuel h1 hds hfailed
    have hm : attempt = m + 1 := by omega
    subst hm
    simp only [send_retry_go]
    refine ⟨by omega, ?_, ?_⟩
    · have : min (m + 1 - 1) (m - 1) = m + 1 - 1 - 1 := by omega
      rw [hds, this]
    · intro e _he j hj1 hj2
      exact hfailed j hj1 (by omega)
  | succ r ih =>
    intro attempt le ds hfuel h1 hds hfailed
    cases hsend : send attempt with
    | accepted sig =>
      simp only [send_retry_go, hsend]
      refine ⟨by omega, ?_, ?_⟩
      · have : min (attempt - 1) (m - 1) = attempt - 1 := by omega
        rw [hds, this]
      · intro e he
        exact absurd he (by simp)
    | failed e =>
      simp only [send_retry_go, hsend]
      by_cases hlast : attempt < m
      · rw [if_pos hlast]
        have hnext : ds ++ [1000 * attempt] =
            (List.range' 1 (min (attempt + 1 - 1) (m - 1))).map (fun i => 1000 * i) := by
          rw [hds]
          have e1 : min (attempt - 1) (m - 1) = attempt - 1 := by omega
          have e2 : min (attempt + 1 - 1) (m - 1) = attempt := by omega
          rw [e1, e2]
          have e3 : attempt = (attempt - 1) + 1 := by omega
          rw [e3, List.range'_concat, List.map_append]
          simp
          omega
        exact ih (attempt + 1) (some e) _ (by omega) (by omega) hnext
          (fun j hj1 hj2 => by
            rcases Nat.lt_or_ge j attempt with hj | hj
            · exact hfailed j hj1 hj
            · have : j = attempt := by omega
              subst this
              exact ⟨e, hsend⟩)
      · rw [if_neg hlast]
        have hsame : min (attempt - 1) (m - 1) = min (attempt + 1 - 1) (m - 1) := by omega
        exact ih (attempt + 1) (some e) _ (by omega) (by omega)
          (by rw [hds, hsame])
          (fun j hj1 hj2 => by
            rcases Nat.lt_or_ge j attempt with hj | hj
            · exact hfailed j hj1 hj
            · have : j = attempt := by omega
              subst this
              exact ⟨e, hsend⟩)

/-! ## Claim C9 -/

/-- Claim C9: `send_transaction_with_retry` makes at most `max_retries`
attempts, the backoff delays are `1000·1 ms, 1000·2 ms, …` — strictly
increasing, linear in the attempt number — and an error is returned only
after every attempt has failed. -/
theorem C9_retry_discipline (send : Nat → SendAttemptResult) (polls : Nat → PollStatus)
    (max_retries : Nat) :
    (send_transaction_with_retry send polls max_retries).attempts ≤ max_retries ∧
    (send_transaction_with_retry send polls max_retries).delays =
      (List.range' 1 ((send_transaction_with_retry send polls max_retries).attempts - 1)).map
        (fun i => 1000 * i) ∧
    List.Chain' (· < ·) (send_transaction_with_retry send polls max_retries).delays ∧
    (∀ e, (send_transaction_with_retry send polls max_retries).result = Except.error e →
      ∀ j, 1 ≤ j → j ≤ max_retries → ∃ msg, send j = SendAttemptResult.failed msg) := by
  have hspec := send_retry_go_spec send polls max_retries max_retries 1 none []
    (by omega) le_rfl (by simp) (by omega)
  refine ⟨hspec.1, hspec.2.1, ?_, hspec.2.2⟩
  unfold send_transaction_with_retry
  rw [hspec.2.1]
  exact List.Pairwise.chain'
    (List.Pairwise.map _ (fun a b hab => by omega) (List.pairwise_lt_range' 1 _))


/-! ## Claim C1 -/

/-- Claim C1 (amended): for every submission attempt accepted by
`send_transaction`, `send_transaction_with_retry` returns `Ok(signature)` to
the caller regardless of the confirmation outcome — the result of
`wait_for_confirmation` (which does distinguish timeout from on-chain
failure) is logged and discarded, so the three terminal outcomes are not
reported distinctly to the caller of `execute_buy`. -/
theorem C1_amended_confirmation_outcome_not_reported
    (send : Nat → SendAttemptResult) (polls polls' : Nat → PollStatus)
    (max_retries k : Nat) (sig : String)
    (hk1 : 1 ≤ k) (hk2 : k ≤ max_retries)
    (hfail : ∀ j, 1 ≤ j → j < k → ∃ e, send j = SendAttemptResult.failed e)
    (hacc : send k = SendAttemptResult.accepted sig) :
    (send_transaction_with_retry send polls max_retries).result = Except.ok sig ∧
    (send_transaction_with_retry send polls max_retries).result =
      (send_transaction_with_retry send polls' max_retries).result := by
  have h1 := send_retry_go_accepted send polls max_retries k sig hacc
    max_retries 1 none [] hk1 (by omega) (fun j hj1 hj2 => hfail j hj1 hj2)
  have h2 := send_retry_go_accepted send polls' max_retries k sig hacc
    max_retries 1 none [] hk1 (by omega) (fun j hj1 hj2 => hfail j hj1 hj2)
  exact ⟨h1, by rw [send_transaction_with_retry, send_transaction_with_retry, h1, h2]⟩

/-- Counterexample to C1 as stated: on a trace whose confirmation reports an
on-chain failure, and on one that times out, the caller receives the same
`Ok("sig")` as on a confirmed trace, even though `wait_for_confirmation`
itself distinguishes the three outcomes. -/
theorem C1_counterexample :
    (send_transaction_with_retry (fun _ => SendAttemptResult.accepted "sig")
        (fun _ => PollStatus.found (some "InstructionError") none) 3).result =
      Except.ok "sig" ∧
    wait_for_confirmation (fun _ => PollStatus.found (some "InstructionError") none) =
      Except.error "Transaction failed: InstructionError" ∧
    (send_transaction_with_retry (fun _ => SendAttemptResult.accepted "sig")
        (fun _ => PollStatus.notFound) 3).result = Except.ok "sig" ∧
    wait_for_confirmation (fun _ => PollStatus.notFound) =
      Except.error "Transaction confirmation timeout" ∧
    (send_transaction_with_retry (fun _ => SendAttemptResult.accepted "sig")
        (fun _ => PollStatus.found none (some "confirmed")) 3).result = Except.ok "sig" ∧
    wait_for_confirmation (fun _ => PollStatus.found none (some "confirmed")) =
      Except.ok () := by
  refine ⟨?_, ?_, ?_, ?_, ?_, ?_⟩ <;> decide

/-- Witness for C1 (amended): acceptance on attempt 2 of 3 yields `Ok` and
the result is independent of the confirmation polls. -/
theorem C1_witness :
    (send_transaction_with_retry
        (fun j => if j = 2 then SendAttemptResult.accepted "sig"
                  else SendAttemptResult.failed "rpc busy")
        (fun _ => PollStatus.notFound) 3).result = Except.ok "sig" ∧
    (send_transaction_with_retry
        (fun j => if j = 2 then SendAttemptResult.accepted "sig"
                  else SendAttemptResult.failed "rpc busy")
        (fun _ => PollStatus.notFound) 3).result =
      (send_transaction_with_retry
        (fun j => if j = 2 then SendAttemptResult.accepted "sig"
                  else SendAttemptResult.failed "rpc busy")
        (fun _ => PollStatus.found none (some "confirmed")) 3).result :=
  C1_amended_confirmation_outcome_not_reported _ _ _ 3 2 "sig" (by omega) (by omega)
    (fun j hj1 hj2 => by
      have hj : j = 1 := by omega
      subst hj
      exact ⟨"rpc busy", rfl⟩)
    (by decide)

/-- Witness for C9 on a concrete always-failing send oracle. -/
theorem C9_witness :
    (send_transaction_with_retry (fun _ => SendAttemptResult.failed "rpc busy")
        (fun _ => PollStatus.notFound) 3).attempts ≤ 3 ∧
    (send_transaction_with_retry (fun _ => SendAttemptResult.failed "rpc busy")
        (fun _ => PollStatus.notFound) 3).delays =
      (List.range' 1 ((send_transaction_with_retry (fun _ => SendAttemptResult.failed "rpc busy")
        (fun _ => PollStatus.notFound) 3).attempts - 1)).map (fun i => 1000 * i) ∧
    (∃ msg, (fun _ => SendAttemptResult.failed "rpc busy") 1 = SendAttemptResult.failed msg) := by
  have h := C9_retry_discipline (fun _ => SendAttemptResult.failed "rpc busy")
    (fun _ => PollStatus.notFound) 3
  refine ⟨h.1, h.2.1, ?_⟩
  exact h.2.2.2 "rpc busy" (by decide) 1 (by omega) (by omega)

/-! ## Claim C4 -/

/-- Claim C4 (amended): the spec scenario holds — for
`amount_out = 1,000,000` and `slippage_bps = 50` the binary64 computation
returns 995,000, which agrees with the exact integer formula there. -/
theorem C4_amended_scenario :
    calculate_min_amount_out 1000000 50 = 995000 ∧
    1000000 * (10000 - 50) / 10000 = 995000 := by
  refine ⟨?_, ?_⟩ <;> decide

/-- Counterexample to C4 as stated: at `amount_out = 1,000,000`,
`slippage_bps = 4764` the binary64 result (523,599) differs from the exact
integer truncation 1,000,000·(10000−4764)/10000 = 523,600. -/
theorem C4_counterexample :
    calculate_min_amount_out 1000000 4764 ≠ 1000000 * (10000 - 4764) / 10000 := by decide

/-! ## Claim C5 -/

/-- Claim C5 (amended): `calculate_min_amount_out` is monotonically
non-increasing in `slippage_bps` on `0..=10000` for every fixed amount, and
equals `amount` at `slippage_bps = 0` for every `amount ≤ 2^53` (the range in
which a `u64` is exactly representable in binary64). -/
theorem C5_amended_monotone_and_exact_below_2_53 :
    (∀ amount s s' : Nat, s ≤ s' → s' ≤ 10000 →
      calculate_min_amount_out amount s' ≤ calculate_min_amount_out amount s) ∧
    (∀ amount : Nat, amount ≤ 2 ^ 53 → calculate_min_amount_out amount 0 = amount) :=
  ⟨fun amount _ _ h1 h2 => calc_min_mono amount h1 h2, fun amount ha => calc_min_zero amount ha⟩

/-- Witness for C5 (amended) at concrete inputs. -/
theorem C5_witness :
    calculate_min_amount_out 5 7 ≤ calculate_min_amount_out 5 3 ∧
    calculate_min_amount_out 5 0 = 5 :=
  ⟨C5_amended_monotone_and_exact_below_2_53.1 5 3 7 (by omega) (by omega),
   C5_amended_monotone_and_exact_below_2_53.2 5 (by norm_num)⟩

/-- Counterexample to C5 as stated: at `amount = 2^53 + 1` the `u64 → f64`
conversion rounds, so `calculate_min_amount_out amount 0 ≠ amount`. -/
theorem C5_counterexample :
    calculate_min_amount_out 9007199254740993 0 ≠ 9007199254740993 := by decide

end Sniper
